import Mathlib

/-!
Verification of the sampling/labeling pipeline of `dataset.py`
(`MultiVideoAnomalyDataset` and `SingleVideoAnomalyDataset`).

The Python code is embedded shallowly:
* Python ints are `Int`; the float labels `0.0`/`1.0` are the exact
  rationals `0`/`1` (`Rat`).
* The sliding-window loop `for start in range(0, nframes - seq_len + 1)`
  becomes a map over `List.range (nframes - seqLen + 1).toNat`
  (Python `range(0, n)` is empty for `n ≤ 0`).
* The label loop with `break` becomes the structurally recursive
  `labelLoop`.
* JSON values are the inductive `JVal`; dict subscripting that raises
  `KeyError`, `.get` with a default, iteration (`tuple(...)`,
  tuple-unpacking) and `int(...)` are modelled by `Except`-valued
  functions, so a raised exception is an `Except.error`.
* The video decoder (`cv2.VideoCapture`) is external: the frame count it
  reports is a parameter, and for `__getitem__` the frames it can read
  from the seek position are a parameter list (a read fails exactly when
  the list is exhausted, matching end-of-stream).
* `cv2.resize`/numpy cropping are external spatial operations; they are
  abstracted by a parameter producing a 256×256 BGR byte image.
  `cv2.cvtColor(..., COLOR_BGR2RGB)`, `.permute(2,0,1)` and
  `.float().div(255.0)` are modelled exactly.
* `torch.stack` on an empty list raises
  `RuntimeError: stack expects a non-empty TensorList`; this is modelled
  by `torchStack` returning `Except.error` on `[]`.
-/

/-- The inner label loop of both constructors
(`dataset.py` lines 56-60 and 146-150):
`label = 0.0; for s, e in anomaly_frames: if not (end < s or start > e):
label = 1.0; break`.  `start` is the window start, `endI` the window end
`start + seq_len - 1`. -/
def labelLoop (start endI : Int) : List (Int × Int) → Rat
  | [] => 0
  | (s, e) :: rest =>
    if ¬ (endI < s ∨ start > e) then 1 else labelLoop start endI rest

/-- The sliding-window sample loop of both constructors
(`dataset.py` lines 54-62 and 144-151):
`for start in range(0, nframes - seq_len + 1)` produces the pairs
`(start, label)` in order.  Python `range(0, n)` is empty when `n ≤ 0`,
which `Int.toNat` captures. -/
def sampleIndexer (frameCount seqLen : Int) (ranges : List (Int × Int)) :
    List (Int × Rat) :=
  (List.range (frameCount - seqLen + 1).toNat).map fun (i : Nat) =>
    ((i : Int), labelLoop (i : Int) ((i : Int) + seqLen - 1) ranges)

/-- The short-circuiting label loop computes 1 exactly when the window
`[start, endI]` meets some event range, else 0. -/
theorem labelLoop_eq_ite (start endI : Int) (ranges : List (Int × Int)) :
    labelLoop start endI ranges =
      if ∃ p ∈ ranges, ¬ (endI < p.1 ∨ start > p.2) then 1 else 0 := by
  induction ranges with
  | nil => simp [labelLoop]
  | cons pr rest ih =>
    obtain ⟨s, e⟩ := pr
    by_cases h : ¬ (endI < s ∨ start > e)
    · rw [labelLoop, if_pos h,
        if_pos ⟨(s, e), List.mem_cons_self (s, e) rest, h⟩]
    · rw [labelLoop, if_neg h, ih]
      have hiff : (∃ p ∈ (s, e) :: rest, ¬ (endI < p.1 ∨ start > p.2)) ↔
          (∃ p ∈ rest, ¬ (endI < p.1 ∨ start > p.2)) := by
        constructor
        · rintro ⟨p, hp, hP⟩
          rcases List.mem_cons.mp hp with rfl | hp'
          · exact absurd hP h
          · exact ⟨p, hp', hP⟩
        · rintro ⟨p, hp, hP⟩
          exact ⟨p, List.mem_cons_of_mem _ hp, hP⟩
      rw [if_congr hiff rfl rfl]

theorem labelLoop_eq_one_iff (start endI : Int) (ranges : List (Int × Int)) :
    labelLoop start endI ranges = 1 ↔
      ∃ p ∈ ranges, ¬ (endI < p.1 ∨ start > p.2) := by
  rw [labelLoop_eq_ite]
  by_cases h : ∃ p ∈ ranges, ¬ (endI < p.1 ∨ start > p.2)
  · simp [h]
  · simp only [h, if_false, iff_false]
    intro h01
    exact absurd h01 (by norm_num)

theorem labelLoop_eq_zero_iff (start endI : Int) (ranges : List (Int × Int)) :
    labelLoop start endI ranges = 0 ↔
      ¬ ∃ p ∈ ranges, ¬ (endI < p.1 ∨ start > p.2) := by
  rw [labelLoop_eq_ite]
  by_cases h : ∃ p ∈ ranges, ¬ (endI < p.1 ∨ start > p.2)
  · simp only [h, if_true, iff_true] at *
    constructor
    · intro h10; exact absurd h10 (by norm_num)
    · intro hno; exact absurd h hno
  · simp [h]

/-- C1: for positive `frameCount ≥ seqLen > 0` the indexer yields exactly
`frameCount - seqLen + 1` samples whose start indices are
`0, 1, ..., frameCount - seqLen` in strictly increasing order; for
`frameCount < seqLen` it yields no samples (and, being a total function,
raises no error). -/
theorem sampleIndexer_starts (frameCount seqLen : Int)
    (ranges : List (Int × Int)) :
    (0 < frameCount → 0 < seqLen → seqLen ≤ frameCount →
      ((sampleIndexer frameCount seqLen ranges).length : Int) =
          frameCount - seqLen + 1 ∧
      (∀ i (h : i < (sampleIndexer frameCount seqLen ranges).length),
        ((sampleIndexer frameCount seqLen ranges).get ⟨i, h⟩).1 = (i : Int)) ∧
      ((sampleIndexer frameCount seqLen ranges).map Prod.fst).Pairwise
        (· < ·)) ∧
    (frameCount < seqLen → sampleIndexer frameCount seqLen ranges = []) := by
  constructor
  · intro _ _ hle
    have hnn : (0 : Int) ≤ frameCount - seqLen + 1 := by omega
    refine ⟨?_, ?_, ?_⟩
    · rw [sampleIndexer, List.length_map, List.length_range]
      exact Int.toNat_of_nonneg hnn
    · intro i h
      simp only [sampleIndexer, List.get_eq_getElem, List.getElem_map,
        List.getElem_range]
    · rw [sampleIndexer, List.map_map]
      refine (List.pairwise_lt_range _).map _ ?_
      intro a b hab
      show (a : Int) < (b : Int)
      exact_mod_cast hab
  · intro hlt
    have h0 : (frameCount - seqLen + 1).toNat = 0 := by omega
    rw [sampleIndexer, h0, List.range_zero, List.map_nil]

/-- C1 witness: concrete instantiation at `frameCount = 10`, `seqLen = 3`
(8 samples, starts 0..7) and at `frameCount = 2`, `seqLen = 3`
(no samples). -/
theorem sampleIndexer_starts_witness :
    (((sampleIndexer 10 3 [(4, 6)]).length : Int) = 10 - 3 + 1 ∧
      (∀ i (h : i < (sampleIndexer 10 3 [(4, 6)]).length),
        ((sampleIndexer 10 3 [(4, 6)]).get ⟨i, h⟩).1 = (i : Int)) ∧
      ((sampleIndexer 10 3 [(4, 6)]).map Prod.fst).Pairwise (· < ·)) ∧
    sampleIndexer 2 3 [(4, 6)] = [] := by
  refine ⟨(sampleIndexer_starts 10 3 [(4, 6)]).1 (by norm_num) (by norm_num)
    (by norm_num), (sampleIndexer_starts 2 3 [(4, 6)]).2 (by norm_num)⟩

/-- C2: every generated sample's label is 1 iff its window
`[start, start + seqLen - 1]` meets at least one event range under the
closed-interval test `¬ (end < s ∨ start > e)`, and 0 otherwise;
boundary-touching windows (`end = s` or `start = e`) are labeled 1. -/
theorem sampleIndexer_label_iff (frameCount seqLen : Int)
    (ranges : List (Int × Int))
    (hsl : 0 < seqLen) (hse : ∀ p ∈ ranges, p.1 ≤ p.2) :
    ∀ q ∈ sampleIndexer frameCount seqLen ranges,
      (q.2 = 1 ↔ ∃ p ∈ ranges, ¬ (q.1 + seqLen - 1 < p.1 ∨ q.1 > p.2)) ∧
      (q.2 = 0 ↔ ¬ ∃ p ∈ ranges, ¬ (q.1 + seqLen - 1 < p.1 ∨ q.1 > p.2)) ∧
      (∀ p ∈ ranges, q.1 + seqLen - 1 = p.1 → q.2 = 1) ∧
      (∀ p ∈ ranges, q.1 = p.2 → q.2 = 1) := by
  intro q hq
  rcases List.mem_map.mp hq with ⟨i, _, rfl⟩
  dsimp only
  refine ⟨labelLoop_eq_one_iff _ _ _, labelLoop_eq_zero_iff _ _ _, ?_, ?_⟩
  · intro p hp hbound
    exact (labelLoop_eq_one_iff _ _ _).mpr
      ⟨p, hp, by have := hse p hp; omega⟩
  · intro p hp hbound
    exact (labelLoop_eq_one_iff _ _ _).mpr
      ⟨p, hp, by have := hse p hp; omega⟩

/-- C2 witness: the spec scenario `seq_len = 8`, `frame_count = 20`,
`event_frame = [[5, 9]]`, at the sample with start 0 (window `[0,7]`
touches the range, label 1). -/
theorem sampleIndexer_label_iff_witness :
    (0 : Int) < 8 ∧ (∀ p ∈ [((5 : Int), (9 : Int))], p.1 ≤ p.2) ∧
    (((0 : Int), (1 : Rat)) ∈ sampleIndexer 20 8 [(5, 9)]) ∧
    ((((0 : Int), (1 : Rat)).2 = 1 ↔
        ∃ p ∈ [((5 : Int), (9 : Int))],
          ¬ (((0 : Int), (1 : Rat)).1 + 8 - 1 < p.1 ∨
            ((0 : Int), (1 : Rat)).1 > p.2)) ∧
      (((0 : Int), (1 : Rat)).2 = 0 ↔
        ¬ ∃ p ∈ [((5 : Int), (9 : Int))],
          ¬ (((0 : Int), (1 : Rat)).1 + 8 - 1 < p.1 ∨
            ((0 : Int), (1 : Rat)).1 > p.2)) ∧
      (∀ p ∈ [((5 : Int), (9 : Int))],
        ((0 : Int), (1 : Rat)).1 + 8 - 1 = p.1 → ((0 : Int), (1 : Rat)).2 = 1) ∧
      (∀ p ∈ [((5 : Int), (9 : Int))],
        ((0 : Int), (1 : Rat)).1 = p.2 → ((0 : Int), (1 : Rat)).2 = 1)) := by
  refine ⟨by norm_num, by decide, by decide, ?_⟩
  exact sampleIndexer_label_iff 20 8 [(5, 9)] (by norm_num) (by decide)
    ((0 : Int), (1 : Rat)) (by decide)

/-- C3: the `(start, label)` output of the indexer is invariant under any
permutation of the event-range list (the short-circuit order does not
matter). -/
theorem sampleIndexer_perm_invariant (frameCount seqLen : Int)
    (r1 r2 : List (Int × Int)) (hperm : r1.Perm r2) :
    sampleIndexer frameCount seqLen r1 = sampleIndexer frameCount seqLen r2 := by
  have hlab : ∀ st en : Int, labelLoop st en r1 = labelLoop st en r2 := by
    intro st en
    rw [labelLoop_eq_ite, labelLoop_eq_ite]
    refine if_congr ?_ rfl rfl
    constructor
    · rintro ⟨p, hp, h⟩; exact ⟨p, hperm.mem_iff.mp hp, h⟩
    · rintro ⟨p, hp, h⟩; exact ⟨p, hperm.mem_iff.mpr hp, h⟩
  simp only [sampleIndexer, hlab]

/-- C3 witness: swapping the two event ranges leaves the whole sample
list unchanged. -/
theorem sampleIndexer_perm_invariant_witness :
    ([((1 : Int), (2 : Int)), (5, 9)]).Perm [(5, 9), (1, 2)] ∧
    sampleIndexer 10 3 [(1, 2), (5, 9)] = sampleIndexer 10 3 [(5, 9), (1, 2)] := by
  have hp : ([((1 : Int), (2 : Int)), (5, 9)]).Perm [(5, 9), (1, 2)] :=
    List.Perm.swap (5, 9) (1, 2) []
  exact ⟨hp, sampleIndexer_perm_invariant 10 3 _ _ hp⟩

/-- A 256×256 3-channel byte image (row, column, channel), channel values
being bytes; channels are in the decoder's native BGR order. -/
abbrev Img256 := Fin 256 → Fin 256 → Fin 3 → Fin 256

/-- A channel-first frame tensor of shape (3, 256, 256) with exact
rational entries (`.float()` values `v / 255` are exactly representable,
so `Rat` is faithful here). -/
abbrev TensorCHW := Fin 3 → Fin 256 → Fin 256 → Rat

/-- cv2.cvtColor(patch, cv2.COLOR_BGR2RGB) (lines 82 / 172): output
channel `c` is input channel `2 - c`. -/
def cvtColorBGR2RGB (im : Img256) : Img256 :=
  fun i j c => im i j ⟨2 - c.val, by omega⟩

/-- torch.from_numpy(patch).permute(2,0,1).float().div(255.0)
(lines 83 / 173) applied to the BGR→RGB-converted patch: the tensor entry
at (channel, row, col) is the patch byte at (row, col, channel) divided
by 255. -/
def frameToTensor (patch : Img256) : TensorCHW :=
  fun c i j => ((cvtColorBGR2RGB patch i j c).val : Rat) / 255

/-- Decoder-handle events of one `__getitem__` call. -/
inductive CapEv where
  | acquired
  | readOk
  | readFail
  | released
deriving DecidableEq, Repr

/-- Decoder-handle state machine: the handle is open after `acquired`,
closed after `released`. -/
def capStep (b : Bool) : CapEv → Bool
  | CapEv.acquired => true
  | CapEv.released => false
  | _ => b

/-- The read loop of `__getitem__` (lines 74-84 / 161-174): at most
`seq_len` iterations of `cap.read()`, breaking at the first failed read.
The decoder can supply the frames of `avail`, in order, from the seek
position; a read fails exactly when `avail` is exhausted (end of
stream).  Each successful frame goes through the spatial step
`spat` (numpy ROI crop + cv2.resize, an external operation abstracted as
a function to a 256×256 BGR image), then `frameToTensor`.  Returns the
collected tensors together with the read events. -/
def readLoop {Frame : Type} (spat : Frame → Img256) :
    Nat → List Frame → List TensorCHW × List CapEv
  | 0, _ => ([], [])
  | _ + 1, [] => ([], [CapEv.readFail])
  | n + 1, f :: rest =>
    let r := readLoop spat n rest
    (frameToTensor (spat f) :: r.1, CapEv.readOk :: r.2)

/-- torch.stack(frames, dim=0) (lines 87 / 177): PyTorch raises
`RuntimeError: stack expects a non-empty TensorList` on an empty list,
else stacks the frames along a new leading dimension. -/
def torchStack {α : Type} (l : List α) : Except String (List α) :=
  if l.isEmpty then Except.error "stack expects a non-empty TensorList"
  else Except.ok l

/-- The extraction of `__getitem__` (lines 71-87 / 158-177): acquire the
decoder handle, seek, run the read loop, release the handle, then stack.
Returns the stacking result paired with the decoder-event trace.
`cap.release()` (lines 85 / 175) runs after the loop and before
`torch.stack`, on both the break path and the exhausted-loop path. -/
def getItem {Frame : Type} (seqLen : Nat) (spat : Frame → Img256)
    (avail : List Frame) : Except String (List TensorCHW) × List CapEv :=
  let r := readLoop spat seqLen avail
  (torchStack r.1, CapEv.acquired :: (r.2 ++ [CapEv.released]))

/-- The value `__getitem__` returns (or the exception it raises). -/
def getItemSeq {Frame : Type} (seqLen : Nat) (spat : Frame → Img256)
    (avail : List Frame) : Except String (List TensorCHW) :=
  (getItem seqLen spat avail).1

theorem readLoop_frames {Frame : Type} (spat : Frame → Img256) :
    ∀ (n : Nat) (avail : List Frame),
      (readLoop spat n avail).1 =
        (avail.take n).map (fun f => frameToTensor (spat f))
  | 0, _ => by simp [readLoop]
  | _ + 1, [] => by simp [readLoop]
  | n + 1, f :: rest => by
    simp [readLoop, readLoop_frames spat n rest]

theorem readLoop_events {Frame : Type} (spat : Frame → Img256) :
    ∀ (n : Nat) (avail : List Frame),
      ∀ ev ∈ (readLoop spat n avail).2,
        ev = CapEv.readOk ∨ ev = CapEv.readFail
  | 0, _ => by simp [readLoop]
  | _ + 1, [] => by simp [readLoop]
  | n + 1, f :: rest => by
    intro ev hev
    rcases List.mem_cons.mp hev with rfl | hev'
    · exact Or.inl rfl
    · exact readLoop_events spat n rest ev hev'

/-- C5 (amended: at least one frame must be readable, see the
counterexample for `k = 0`): if the decoder supplies
`k = min seq_len avail.length ≥ 1` frames, `__getitem__` returns a
stacked sequence of exactly `k` frame tensors (shape `(k, 3, 256, 256)`
— the `(3, 256, 256)` part is the type of `TensorCHW`), `k = seq_len`
whenever the decoder can supply `seq_len` frames, every entry lies in
`[0, 1]`, and the entry at `(channel c, row i, col j)` of frame `t` is
the BGR channel `2 - c` of the spatially processed frame, divided by 255
(RGB order, channel-first). -/
theorem getItem_shape_range_rgb {Frame : Type} (seqLen : Nat)
    (spat : Frame → Img256) (avail : List Frame)
    (h : 1 ≤ min seqLen avail.length) :
    ∃ seq, getItemSeq seqLen spat avail = Except.ok seq ∧
      seq.length = min seqLen avail.length ∧
      (seqLen ≤ avail.length → seq.length = seqLen) ∧
      (∀ t ∈ seq, ∀ c i j, 0 ≤ t c i j ∧ t c i j ≤ 1) ∧
      seq = (avail.take seqLen).map (fun f => fun c i j =>
        ((spat f i j ⟨2 - c.val, by omega⟩).val : Rat) / 255) := by
  have hframes := readLoop_frames spat seqLen avail
  have hlen : ((readLoop spat seqLen avail).1).length =
      min seqLen avail.length := by
    rw [hframes, List.length_map, List.length_take]
  have hpos : 0 < ((readLoop spat seqLen avail).1).length := by omega
  have hemp : ((readLoop spat seqLen avail).1).isEmpty = false := by
    cases hcase : (readLoop spat seqLen avail).1 with
    | nil => rw [hcase] at hpos; simp at hpos
    | cons a l => rfl
  refine ⟨(readLoop spat seqLen avail).1, ?_, hlen, ?_, ?_, ?_⟩
  · simp [getItemSeq, getItem, torchStack, hemp]
  · intro hge; omega
  · intro t ht c i j
    rw [hframes] at ht
    rcases List.mem_map.mp ht with ⟨f, _, rfl⟩
    constructor
    · apply div_nonneg
      · exact_mod_cast Nat.zero_le _
      · norm_num
    · rw [frameToTensor, div_le_one (by norm_num)]
      exact_mod_cast Nat.le_of_lt_succ (cvtColorBGR2RGB (spat f) i j c).isLt
  · rw [hframes]
    rfl

/-- A concrete spatial step (crop + resize stub) for witnesses. -/
def cSpat : Unit → Img256 := fun _ _ _ _ => (⟨7, by omega⟩ : Fin 256)

/-- C5 witness: two readable frames, `seq_len = 2`. -/
theorem getItem_shape_range_rgb_witness :
    1 ≤ min 2 ([(), ()] : List Unit).length ∧
    (∃ seq, getItemSeq 2 cSpat [(), ()] = Except.ok seq ∧
      seq.length = min 2 ([(), ()] : List Unit).length ∧
      (2 ≤ ([(), ()] : List Unit).length → seq.length = 2) ∧
      (∀ t ∈ seq, ∀ c i j, 0 ≤ t c i j ∧ t c i j ≤ 1) ∧
      seq = (([(), ()] : List Unit).take 2).map (fun f => fun c i j =>
        ((cSpat f i j ⟨2 - c.val, by omega⟩).val : Rat) / 255)) :=
  ⟨by decide, getItem_shape_range_rgb 2 cSpat [(), ()] (by decide)⟩

/-- C5 counterexample: with `k = 0` readable frames no `(0, 3, 256, 256)`
tensor is returned; the stacking step raises instead. -/
theorem getItem_zero_frames_raises :
    getItemSeq 8 cSpat ([] : List Unit) =
      Except.error "stack expects a non-empty TensorList" := rfl

/-- C6 (amended: at least one frame must be readable): when the decoder
supplies at least one but fewer than `seq_len` frames, the read loop
stops at the failed read and the call returns the stacked short sequence
without raising and without reporting the truncation; with zero readable
frames the stacking step raises (see the counterexample). -/
theorem getItem_short_read_truncates {Frame : Type} (seqLen : Nat)
    (spat : Frame → Img256) (avail : List Frame)
    (hne : avail ≠ []) (hshort : avail.length < seqLen) :
    ∃ seq, getItemSeq seqLen spat avail = Except.ok seq ∧
      seq.length = avail.length ∧ seq.length < seqLen := by
  have hframes := readLoop_frames spat seqLen avail
  have hlen : ((readLoop spat seqLen avail).1).length = avail.length := by
    rw [hframes, List.length_map, List.length_take]
    omega
  have hpos : 0 < ((readLoop spat seqLen avail).1).length := by
    rw [hlen]
    exact List.length_pos.mpr hne
  have hemp : ((readLoop spat seqLen avail).1).isEmpty = false := by
    cases hcase : (readLoop spat seqLen avail).1 with
    | nil => rw [hcase] at hpos; simp at hpos
    | cons a l => rfl
  refine ⟨(readLoop spat seqLen avail).1, ?_, hlen, by omega⟩
  simp [getItemSeq, getItem, torchStack, hemp]

/-- C6 witness: one readable frame, `seq_len = 3`: the caller receives a
length-1 sequence. -/
theorem getItem_short_read_truncates_witness :
    ([()] : List Unit) ≠ [] ∧ ([()] : List Unit).length < 3 ∧
    (∃ seq, getItemSeq 3 cSpat [()] = Except.ok seq ∧
      seq.length = ([()] : List Unit).length ∧ seq.length < 3) :=
  ⟨by decide, by decide,
    getItem_short_read_truncates 3 cSpat [()] (by decide) (by decide)⟩

/-- C6 counterexample: with zero readable frames the call raises instead
of returning an empty sequence. -/
theorem getItem_empty_stream_raises :
    getItemSeq 5 cSpat ([] : List Unit) =
      Except.error "stack expects a non-empty TensorList" := rfl

/-- C7: every extraction acquires the decoder handle exactly once and
releases it exactly once, and the handle state machine ends closed —
on full reads, on the short-read break path, and even when the stacking
step raises, since `cap.release()` precedes `torch.stack`. -/
theorem getItem_releases_handle {Frame : Type} (seqLen : Nat)
    (spat : Frame → Img256) (avail : List Frame) :
    ((getItem seqLen spat avail).2.countP
        (fun ev => decide (ev = CapEv.released)) = 1) ∧
    ((getItem seqLen spat avail).2.countP
        (fun ev => decide (ev = CapEv.acquired)) = 1) ∧
    ((getItem seqLen spat avail).2.foldl capStep false = false) := by
  have hev := readLoop_events spat seqLen avail
  have hrel : (readLoop spat seqLen avail).2.countP
      (fun ev => decide (ev = CapEv.released)) = 0 := by
    rw [List.countP_eq_zero]
    intro ev hevm
    rcases hev ev hevm with rfl | rfl <;> decide
  have hacq : (readLoop spat seqLen avail).2.countP
      (fun ev => decide (ev = CapEv.acquired)) = 0 := by
    rw [List.countP_eq_zero]
    intro ev hevm
    rcases hev ev hevm with rfl | rfl <;> decide
  refine ⟨?_, ?_, ?_⟩
  · show (CapEv.acquired ::
        ((readLoop spat seqLen avail).2 ++ [CapEv.released])).countP
          (fun ev => decide (ev = CapEv.released)) = 1
    rw [List.countP_cons, List.countP_append, hrel]
    rfl
  · show (CapEv.acquired ::
        ((readLoop spat seqLen avail).2 ++ [CapEv.released])).countP
          (fun ev => decide (ev = CapEv.acquired)) = 1
    rw [List.countP_cons, List.countP_append, hacq]
    rfl
  · show (CapEv.acquired ::
        ((readLoop spat seqLen avail).2 ++ [CapEv.released])).foldl
          capStep false = false
    rw [List.foldl_cons, List.foldl_append]
    rfl

/-- JSON values as produced by `json.load`. -/
inductive JVal where
  | jnum : Int → JVal
  | jstr : String → JVal
  | jarr : List JVal → JVal
  | jobj : List (String × JVal) → JVal

/-- Python `d[k]` / `d.get(k)` on a parsed JSON value: `some` for a key
present in a dict, `none` when the key is missing or the value is not a
dict (subscripting then raises). -/
def JVal.getKey : JVal → String → Option JVal
  | JVal.jobj kvs, k => kvs.lookup k
  | _, _ => none

/-- Python iteration as used by `tuple(...)` and tuple-unpacking: lists
iterate over their elements, dicts over their keys, strings over their
one-character substrings; numbers are not iterable. -/
def pyIter : JVal → Except String (List JVal)
  | JVal.jarr l => Except.ok l
  | JVal.jobj kvs => Except.ok (kvs.map fun kv => JVal.jstr kv.1)
  | JVal.jstr s => Except.ok (s.data.map fun c => JVal.jstr (String.mk [c]))
  | JVal.jnum _ => Except.error "TypeError: not iterable"

/-- Python `int(x)` on a JSON value: numbers pass through, numeric
strings parse, anything else raises. -/
def pyInt : JVal → Except String Int
  | JVal.jnum n => Except.ok n
  | JVal.jstr s =>
    match s.toInt? with
    | some n => Except.ok n
    | none => Except.error "ValueError: invalid literal for int()"
  | _ => Except.error "TypeError: int() argument"

/-- Python `s, e = el` followed by `(int(s), int(e))` for one element of
`event_frame` (lines 40-41 / 138-141). -/
def unpackRange (el : JVal) : Except String (Int × Int) :=
  match pyIter el with
  | Except.error e => Except.error e
  | Except.ok [a, b] =>
    match pyInt a with
    | Except.error e => Except.error e
    | Except.ok s =>
      match pyInt b with
      | Except.error e => Except.error e
      | Except.ok e2 => Except.ok (s, e2)
  | Except.ok _ => Except.error "ValueError: cannot unpack"

/-- The `event_frame` traversal (lines 39-42 and 137-141; the
comprehension and the append loop build the same list). -/
def parseEventFrames (v : JVal) : Except String (List (Int × Int)) :=
  match pyIter v with
  | Except.error e => Except.error e
  | Except.ok l => l.mapM unpackRange

/-- Line 36: `tuple(item['annotations'].get('roi', self.default_roi))` —
the record's `roi` value is tupled when the key is present (raising when
it is not iterable); when absent, the caller's default tuple is used
unchanged (`tuple` of a tuple is itself). -/
def getRoiTuple (annKvs : List (String × JVal)) (defaultRoi : List JVal) :
    Except String (List JVal) :=
  match annKvs.lookup "roi" with
  | some v => pyIter v
  | none => Except.ok defaultRoi

/-- Lines 32-42 of `MultiVideoAnomalyDataset.__init__`: the per-record
load.  `item['annotations']` raises when the key is missing; `.get` on a
non-dict raises; the ROI read (line 36) precedes the `event_frame` read
(lines 39-42), as in the source. -/
def loadAnnot (defaultRoi : List JVal) (item : JVal) :
    Except String (List JVal × List (Int × Int)) :=
  match item.getKey "annotations" with
  | none => Except.error "KeyError: annotations"
  | some (JVal.jobj annKvs) =>
    match getRoiTuple annKvs defaultRoi with
    | Except.error e => Except.error e
    | Except.ok roi =>
      match annKvs.lookup "event_frame" with
      | none => Except.error "KeyError: event_frame"
      | some evv =>
        match parseEventFrames evv with
        | Except.error e => Except.error e
        | Except.ok ranges => Except.ok (roi, ranges)
  | some _ => Except.error "AttributeError: get"

/-- Lines 121-141 of `SingleVideoAnomalyDataset.__init__`: the JSON load
reads only `item['annotations']['event_frame']`; the record's `roi`, if
any, is never consulted. -/
def loadEventFramesSingle (item : JVal) :
    Except String (List (Int × Int)) :=
  match item.getKey "annotations" with
  | none => Except.error "KeyError: annotations"
  | some ann =>
    match ann.getKey "event_frame" with
    | none => Except.error "KeyError: event_frame"
    | some evv => parseEventFrames evv

/-- One stored sample of the multi-video dataset:
`(video_path, start_idx, label, roi)` (line 62). -/
structure MSample where
  vpath : String
  start : Int
  label : Rat
  roi : List JVal

/-- One discovered annotation file: base filename (from the glob),
parsed JSON content, and the frame count the external decoder reports
for the derived video (lines 49-51; 0 for an unreadable video). -/
structure FileRec where
  base : String
  item : JVal
  nframes : Int

/-- Lines 30-62 for one annotation file: load the record, derive
`vpath = video_dir/base.mp4` (lines 44-46), and run the sliding-window
loop over the decoder-reported frame count. -/
def perFileSamples (seqLen : Int) (defaultRoi : List JVal)
    (videoDir : String) (f : FileRec) : Except String (List MSample) :=
  match loadAnnot defaultRoi f.item with
  | Except.error e => Except.error e
  | Except.ok rr =>
    Except.ok ((sampleIndexer f.nframes seqLen rr.2).map fun q =>
      { vpath := videoDir ++ "/" ++ f.base ++ ".mp4", start := q.1,
        label := q.2, roi := rr.1 })

/-- The constructor loop of `MultiVideoAnomalyDataset.__init__`
(lines 30-62): files are processed in discovery order, each appending
its samples to `self.samples`; an exception on any file propagates and
aborts the construction, so no dataset value results. -/
def multiInit (seqLen : Int) (defaultRoi : List JVal) (videoDir : String) :
    List FileRec → Except String (List MSample)
  | [] => Except.ok []
  | f :: rest =>
    match perFileSamples seqLen defaultRoi videoDir f with
    | Except.error e => Except.error e
    | Except.ok blk =>
      match multiInit seqLen defaultRoi videoDir rest with
      | Except.error e => Except.error e
      | Except.ok rs => Except.ok (blk ++ rs)

/-- `MultiVideoAnomalyDataset.__len__` (lines 64-65). -/
def multiLen (samples : List MSample) : Nat := samples.length

/-- The fields `SingleVideoAnomalyDataset.__init__` stores
(lines 114-118); `T` is the type of the caller's transform. -/
structure SingleDataset (T : Type) where
  seq_len : Int
  fps : Int
  transform : T
  roi : List JVal
  samples : List (String × Int × Rat)

/-- `SingleVideoAnomalyDataset.__init__` (lines 111-151): stores
`seq_len`, `fps`, `transform` and the caller's `roi` verbatim, loads the
event ranges from the record, and runs the sliding-window loop over the
decoder-reported frame count. -/
def singleInit {T : Type} (seqLen fps : Int) (roi : List JVal)
    (transform : T) (item : JVal) (frameCount : Int) (videoPath : String) :
    Except String (SingleDataset T) :=
  match loadEventFramesSingle item with
  | Except.error e => Except.error e
  | Except.ok ranges =>
    Except.ok
      { seq_len := seqLen, fps := fps, transform := transform, roi := roi,
        samples := (sampleIndexer frameCount seqLen ranges).map fun q =>
          (videoPath, q.1, q.2) }

theorem perFileSamples_ok (seqLen : Int) (defaultRoi : List JVal)
    (videoDir : String) (f : FileRec) (blk : List MSample)
    (h : perFileSamples seqLen defaultRoi videoDir f = Except.ok blk) :
    blk.length = (f.nframes - seqLen + 1).toNat ∧
    ∀ s ∈ blk, s.vpath = videoDir ++ "/" ++ f.base ++ ".mp4" := by
  cases hl : loadAnnot defaultRoi f.item with
  | error e =>
    simp only [perFileSamples, hl] at h
    exact Except.noConfusion h
  | ok rr =>
    simp only [perFileSamples, hl, Except.ok.injEq] at h
    subst h
    constructor
    · rw [List.length_map, sampleIndexer, List.length_map, List.length_range]
    · intro s hs
      rcases List.mem_map.mp hs with ⟨q, _, rfl⟩
      rfl

theorem perFileSamples_needs_load (seqLen : Int) (defaultRoi : List JVal)
    (videoDir : String) (f : FileRec) (blk : List MSample)
    (h : perFileSamples seqLen defaultRoi videoDir f = Except.ok blk) :
    ∃ rr, loadAnnot defaultRoi f.item = Except.ok rr := by
  cases hl : loadAnnot defaultRoi f.item with
  | error e =>
    simp only [perFileSamples, hl] at h
    exact Except.noConfusion h
  | ok rr => exact ⟨rr, rfl⟩

theorem multiInit_cons_ok (seqLen : Int) (defaultRoi : List JVal)
    (videoDir : String) (f : FileRec) (rest : List FileRec)
    (samples : List MSample)
    (h : multiInit seqLen defaultRoi videoDir (f :: rest) =
      Except.ok samples) :
    ∃ blk rs, perFileSamples seqLen defaultRoi videoDir f = Except.ok blk ∧
      multiInit seqLen defaultRoi videoDir rest = Except.ok rs ∧
      samples = blk ++ rs := by
  cases hf : perFileSamples seqLen defaultRoi videoDir f with
  | error e =>
    simp only [multiInit, hf] at h
    exact Except.noConfusion h
  | ok blk =>
    cases hr : multiInit seqLen defaultRoi videoDir rest with
    | error e =>
      simp only [multiInit, hf, hr] at h
      exact Except.noConfusion h
    | ok rs =>
      simp only [multiInit, hf, hr, Except.ok.injEq] at h
      exact ⟨blk, rs, rfl, rfl, h.symm⟩

/-- C4: on successful construction, `__len__` is the sum over the
discovered files of that file's valid window count
`max(frame_count - seq_len + 1, 0)`, and the sample list is the
concatenation of one contiguous block per file in processing order — the
`i`-th block has exactly the `i`-th file's window count and every sample
in it carries the `i`-th file's derived video path. -/
theorem multiInit_len_contiguous (seqLen : Int) (defaultRoi : List JVal)
    (videoDir : String) (files : List FileRec) (samples : List MSample)
    (h : multiInit seqLen defaultRoi videoDir files = Except.ok samples) :
    multiLen samples =
      (files.map fun f => (f.nframes - seqLen + 1).toNat).sum ∧
    ∃ blocks : List (List MSample),
      samples = blocks.flatten ∧
      blocks.length = files.length ∧
      (∀ i : Nat, (blocks.getD i []).length =
        (files.map fun f => (f.nframes - seqLen + 1).toNat).getD i 0) ∧
      (∀ i : Nat, ∀ s ∈ blocks.getD i [],
        s.vpath = videoDir ++ "/" ++
          (files.map fun f => f.base).getD i "" ++ ".mp4") := by
  induction files generalizing samples with
  | nil =>
    simp only [multiInit, Except.ok.injEq] at h
    subst h
    refine ⟨rfl, [], rfl, rfl, fun i => rfl, fun i s hs => ?_⟩
    simp at hs
  | cons f rest ih =>
    obtain ⟨blk, rs, hf, hr, rfl⟩ :=
      multiInit_cons_ok seqLen defaultRoi videoDir f rest samples h
    obtain ⟨hlenR, blocksR, hjoinR, hblenR, hgetR, hvR⟩ := ih rs hr
    obtain ⟨hblkLen, hblkV⟩ :=
      perFileSamples_ok seqLen defaultRoi videoDir f blk hf
    refine ⟨?_, blk :: blocksR, ?_, ?_, ?_, ?_⟩
    · simp only [multiLen, List.length_append, List.map_cons, List.sum_cons]
      rw [hblkLen]
      simp only [multiLen] at hlenR
      rw [hlenR]
    · rw [List.flatten_cons, hjoinR]
    · simp only [List.length_cons, hblenR]
    · intro i
      cases i with
      | zero => simpa using hblkLen
      | succ n => simpa using hgetR n
    · intro i s hs
      cases i with
      | zero => simpa using hblkV s (by simpa using hs)
      | succ n => simpa using hvR n s (by simpa using hs)

/-- The default ROI of the source (line 18), as a JSON-value tuple. -/
def cDfltRoi : List JVal :=
  [JVal.jnum 1150, JVal.jnum 300, JVal.jnum 1600, JVal.jnum 700]

/-- A record whose `annotations` hold an empty `event_frame` list. -/
def cEmptyEvItem : JVal :=
  JVal.jobj [("annotations", JVal.jobj [("event_frame", JVal.jarr [])])]

def cFileA : FileRec := { base := "A", item := cEmptyEvItem, nframes := 8 }

def cFileB : FileRec := { base := "B", item := cEmptyEvItem, nframes := 10 }

def cMultiSamples : List MSample :=
  (multiInit 4 cDfltRoi "video" [cFileA, cFileB]).toOption.getD []

/-- C4 witness: two files yielding 5 and 7 samples give dataset length
12, block A first (indices 0-4), block B second (indices 5-11). -/
theorem multiInit_len_contiguous_witness :
    multiInit 4 cDfltRoi "video" [cFileA, cFileB] =
      Except.ok cMultiSamples ∧
    multiLen cMultiSamples = 12 ∧
    (multiLen cMultiSamples =
        (([cFileA, cFileB]).map fun f => (f.nframes - 4 + 1).toNat).sum ∧
      ∃ blocks : List (List MSample),
        cMultiSamples = blocks.flatten ∧
        blocks.length = ([cFileA, cFileB] : List FileRec).length ∧
        (∀ i : Nat, (blocks.getD i []).length =
          (([cFileA, cFileB]).map fun f =>
            (f.nframes - 4 + 1).toNat).getD i 0) ∧
        (∀ i : Nat, ∀ s ∈ blocks.getD i [],
          s.vpath = "video" ++ "/" ++
            (([cFileA, cFileB]).map fun f => f.base).getD i "" ++ ".mp4")) := by
  have h : multiInit 4 cDfltRoi "video" [cFileA, cFileB] =
      Except.ok cMultiSamples := rfl
  exact ⟨h, rfl, multiInit_len_contiguous 4 cDfltRoi "video" [cFileA, cFileB]
    cMultiSamples h⟩

theorem loadAnnot_roi_eq (defaultRoi : List JVal) (item : JVal)
    (roi : List JVal) (ranges : List (Int × Int))
    (annKvs : List (String × JVal))
    (hkey : item.getKey "annotations" = some (JVal.jobj annKvs))
    (h : loadAnnot defaultRoi item = Except.ok (roi, ranges)) :
    getRoiTuple annKvs defaultRoi = Except.ok roi := by
  simp only [loadAnnot, hkey] at h
  cases hroi : getRoiTuple annKvs defaultRoi with
  | error e =>
    simp only [hroi] at h
    exact Except.noConfusion h
  | ok r =>
    simp only [hroi] at h
    cases hev : annKvs.lookup "event_frame" with
    | none =>
      simp only [hev] at h
      exact Except.noConfusion h
    | some evv =>
      simp only [hev] at h
      cases hp : parseEventFrames evv with
      | error e =>
        simp only [hp] at h
        exact Except.noConfusion h
      | ok rg =>
        simp only [hp, Except.ok.injEq, Prod.mk.injEq] at h
        rw [h.1]

theorem singleInit_roi_eq (T : Type) (seqLen fps : Int)
    (callerRoi : List JVal) (tr : T) (item : JVal) (frameCount : Int)
    (videoPath : String) (ds : SingleDataset T)
    (h : singleInit seqLen fps callerRoi tr item frameCount videoPath =
      Except.ok ds) : ds.roi = callerRoi := by
  cases hl : loadEventFramesSingle item with
  | error e =>
    simp only [singleInit, hl] at h
    exact Except.noConfusion h
  | ok ranges =>
    simp only [singleInit, hl, Except.ok.injEq] at h
    subst h
    rfl

/-- C8 (amended): for the multi-video loader the claim holds — the
record's `roi` is returned when the key is present, the caller's default
unchanged when absent; the single-video variant, however, never consults
the record's `roi`: its dataset always carries the caller-supplied `roi`
argument. -/
theorem roiSelection (defaultRoi : List JVal) (item : JVal)
    (roi : List JVal) (ranges : List (Int × Int))
    (h : loadAnnot defaultRoi item = Except.ok (roi, ranges)) :
    (∀ annKvs, item.getKey "annotations" = some (JVal.jobj annKvs) →
      (∀ l, annKvs.lookup "roi" = some (JVal.jarr l) → roi = l) ∧
      (annKvs.lookup "roi" = none → roi = defaultRoi)) ∧
    (∀ (T : Type) (seqLen fps : Int) (callerRoi : List JVal) (tr : T)
        (frameCount : Int) (videoPath : String) (ds : SingleDataset T),
      singleInit seqLen fps callerRoi tr item frameCount videoPath =
        Except.ok ds → ds.roi = callerRoi) := by
  constructor
  · intro annKvs hkey
    have hg := loadAnnot_roi_eq defaultRoi item roi ranges annKvs hkey h
    constructor
    · intro l hl
      simp only [getRoiTuple, hl, pyIter, Except.ok.injEq] at hg
      exact hg.symm
    · intro hl
      simp only [getRoiTuple, hl, Except.ok.injEq] at hg
      exact hg.symm
  · intro T seqLen fps callerRoi tr frameCount videoPath ds hds
    exact singleInit_roi_eq T seqLen fps callerRoi tr item frameCount
      videoPath ds hds

def cFullAnnKvs : List (String × JVal) :=
  [("roi", JVal.jarr [JVal.jnum 1, JVal.jnum 2, JVal.jnum 3, JVal.jnum 4]),
   ("event_frame", JVal.jarr [JVal.jarr [JVal.jnum 5, JVal.jnum 9]])]

def cFullItem : JVal := JVal.jobj [("annotations", JVal.jobj cFullAnnKvs)]

def cNoRoiAnnKvs : List (String × JVal) :=
  [("event_frame", JVal.jarr [JVal.jarr [JVal.jnum 5, JVal.jnum 9]])]

def cNoRoiItem : JVal := JVal.jobj [("annotations", JVal.jobj cNoRoiAnnKvs)]

def cCallerRoi : List JVal :=
  [JVal.jnum 0, JVal.jnum 0, JVal.jnum 10, JVal.jnum 10]

/-- C8 witness: with `roi` present the multi loader returns the record's
value; with `roi` absent the caller's default comes back unchanged; the
single-video dataset carries the caller's `roi`. -/
theorem roiSelection_witness :
    (∀ l, cFullAnnKvs.lookup "roi" = some (JVal.jarr l) →
      ([JVal.jnum 1, JVal.jnum 2, JVal.jnum 3, JVal.jnum 4] : List JVal) =
        l) ∧
    (cNoRoiAnnKvs.lookup "roi" = none → cDfltRoi = cDfltRoi) ∧
    (∀ ds : SingleDataset Unit,
      singleInit 8 8 cDfltRoi () cFullItem 20 "video/E.mp4" =
        Except.ok ds → ds.roi = cDfltRoi) := by
  refine ⟨?_, ?_, ?_⟩
  · exact ((roiSelection cDfltRoi cFullItem
      [JVal.jnum 1, JVal.jnum 2, JVal.jnum 3, JVal.jnum 4] [(5, 9)] rfl).1
      cFullAnnKvs rfl).1
  · exact ((roiSelection cDfltRoi cNoRoiItem cDfltRoi [(5, 9)] rfl).1
      cNoRoiAnnKvs rfl).2
  · intro ds hds
    exact (roiSelection cDfltRoi cFullItem
      [JVal.jnum 1, JVal.jnum 2, JVal.jnum 3, JVal.jnum 4] [(5, 9)] rfl).2
      Unit 8 8 cDfltRoi () 20 "video/E.mp4" ds hds

/-- C8 counterexample: the single-video variant ignores the record's
`roi` even when the key is present — the constructed dataset's ROI is
the caller's `[0, 0, 10, 10]`, not the record's `[1, 2, 3, 4]`. -/
theorem singleRoiNotOverridden :
    Except.map (fun ds => ds.roi)
        (@singleInit Unit 8 8 cCallerRoi () cFullItem 20 "video/E.mp4") =
      Except.ok cCallerRoi ∧
    cCallerRoi ≠ [JVal.jnum 1, JVal.jnum 2, JVal.jnum 3, JVal.jnum 4] := by
  refine ⟨rfl, ?_⟩
  intro hcontra
  have h1 : JVal.jnum 0 = JVal.jnum 1 := by injection hcontra
  have h2 : (0 : Int) = 1 := by injection h1
  exact absurd h2 (by norm_num)

theorem multiInit_never_ok_of_mem (seqLen : Int) (defaultRoi : List JVal)
    (videoDir : String) (files : List FileRec) :
    ∀ f ∈ files, (∀ rr, loadAnnot defaultRoi f.item ≠ Except.ok rr) →
      ∀ samples,
        multiInit seqLen defaultRoi videoDir files ≠ Except.ok samples := by
  induction files with
  | nil =>
    intro f hf
    exact absurd hf (List.not_mem_nil f)
  | cons g rest ih =>
    intro f hf hbad samples hok
    obtain ⟨blk, rs, hg, hr, _⟩ :=
      multiInit_cons_ok seqLen defaultRoi videoDir g rest samples hok
    rcases List.mem_cons.mp hf with rfl | hf'
    · obtain ⟨rr, hrr⟩ :=
        perFileSamples_needs_load seqLen defaultRoi videoDir f blk hg
      exact hbad rr hrr
    · exact ih f hf' hbad rs hr

/-- C9: a record with no `annotations` section, or whose section lacks
`event_frame`, makes the load raise (in both variants) at load time,
before any samples for that record are indexed; in the multi-video case
one such record among the discovered files aborts the entire
aggregation — construction never yields a sample list. -/
theorem badRecord_aborts (seqLen : Int) (defaultRoi : List JVal)
    (videoDir : String) (item : JVal) :
    (item.getKey "annotations" = none →
      loadAnnot defaultRoi item = Except.error "KeyError: annotations" ∧
      loadEventFramesSingle item =
        Except.error "KeyError: annotations") ∧
    (∀ annKvs, item.getKey "annotations" = some (JVal.jobj annKvs) →
      annKvs.lookup "event_frame" = none →
      (∀ rr, loadAnnot defaultRoi item ≠ Except.ok rr) ∧
      loadEventFramesSingle item =
        Except.error "KeyError: event_frame") ∧
    (∀ (files : List FileRec), ∀ f ∈ files,
      (∀ rr, loadAnnot defaultRoi f.item ≠ Except.ok rr) →
      ∀ samples,
        multiInit seqLen defaultRoi videoDir files ≠
          Except.ok samples) := by
  refine ⟨?_, ?_, ?_⟩
  · intro hkey
    constructor
    · simp only [loadAnnot, hkey]
    · simp only [loadEventFramesSingle, hkey]
  · intro annKvs hkey hev
    constructor
    · intro rr hok
      simp only [loadAnnot, hkey] at hok
      cases hroi : getRoiTuple annKvs defaultRoi with
      | error e =>
        simp only [hroi] at hok
        exact Except.noConfusion hok
      | ok r =>
        simp only [hroi, hev] at hok
        exact Except.noConfusion hok
    · simp only [loadEventFramesSingle, hkey]
      simp only [JVal.getKey]
      simp only [hev]
  · exact multiInit_never_ok_of_mem seqLen defaultRoi videoDir

def cNoAnnItem : JVal := JVal.jobj [("file", JVal.jstr "E01_001.mp4")]

def cNoEvKvs : List (String × JVal) :=
  [("roi", JVal.jarr [JVal.jnum 0, JVal.jnum 0, JVal.jnum 5, JVal.jnum 5])]

def cNoEvItem : JVal := JVal.jobj [("annotations", JVal.jobj cNoEvKvs)]

def cBadFile : FileRec :=
  { base := "E01_001", item := cNoAnnItem, nframes := 100 }

/-- C9 witness: a record without `annotations`, a record without
`event_frame`, and a multi-video aggregation over one bad record. -/
theorem badRecord_aborts_witness :
    (loadAnnot cDfltRoi cNoAnnItem =
        Except.error "KeyError: annotations" ∧
      loadEventFramesSingle cNoAnnItem =
        Except.error "KeyError: annotations") ∧
    ((∀ rr, loadAnnot cDfltRoi cNoEvItem ≠ Except.ok rr) ∧
      loadEventFramesSingle cNoEvItem =
        Except.error "KeyError: event_frame") ∧
    (∀ samples, multiInit 8 cDfltRoi "video" [cBadFile] ≠
      Except.ok samples) := by
  refine ⟨(badRecord_aborts 8 cDfltRoi "video" cNoAnnItem).1 rfl,
    (badRecord_aborts 8 cDfltRoi "video" cNoEvItem).2.1 cNoEvKvs rfl rfl,
    (badRecord_aborts 8 cDfltRoi "video" cNoAnnItem).2.2 [cBadFile] cBadFile
      (List.mem_singleton.mpr rfl) ?_⟩
  intro rr hrr
  exact Except.noConfusion hrr

/-- C10: `fps` has no influence on indexing or labeling — two single-video
constructions differing only in `fps` produce identical outcomes when
projected to their samples list (same video path, start indices and
labels at every position). -/
theorem singleInit_fps_irrelevant (T : Type) (seqLen fps1 fps2 : Int)
    (roi : List JVal) (tr : T) (item : JVal) (frameCount : Int)
    (videoPath : String) :
    Except.map (fun ds => ds.samples)
        (singleInit seqLen fps1 roi tr item frameCount videoPath) =
      Except.map (fun ds => ds.samples)
        (singleInit seqLen fps2 roi tr item frameCount videoPath) := by
  cases hl : loadEventFramesSingle item with
  | error e => simp only [singleInit, hl]
  | ok ranges => simp only [singleInit, hl, Except.map]
